import Mathlib

/-!
The command `ssh` of `command/ssh.go`: fan-out of commands and files over ssh.

A shallow embedding of the Go source `src/command/ssh.go`, and the properties of it that the
specification states.

Conventions of the embedding.

* A Go `string` is an immutable byte sequence: `GoString := List UInt8`.  A string literal of
  the source is written `str "..."` (Go source text is UTF-8).
* A Go `error` is a value carrying the text of `Error()` and whether its dynamic type is
  `*net.OpError`, the only thing the source ever asks about an error besides its text.
* Everything outside the process (network, remote host, file system, key parser) is a field
  of `World`: a function from the arguments of a call to the outcome of the call.
* A method with a pointer receiver returns the updated receiver next to its Go results.
* A statement `go f(...)` is recorded as a launched `Task`; what a task does when it runs is
  the function `sendcommand` or `sendfile` itself.
* Loops that read a file run on fuel; `FileLine_run_returns` shows that the fuel given is
  always enough.
-/

namespace command

/-! ## Strings, errors and formatting -/

/-- Go `string`: a byte sequence. -/
abbrev GoString := List UInt8

/-- The bytes of a Go string literal (UTF-8 encoding of the source text). -/
def str (s : String) : GoString := s.data.flatMap String.utf8EncodeChar

/-- A Go `error`: `isOpError` says that the dynamic type is `*net.OpError`, `msg` is `Error()`. -/
structure GoError where
  isOpError : Bool
  msg : GoString
deriving DecidableEq, Repr

/-- Result of `fmt.Errorf`: an error that is not a `*net.OpError`. -/
def Errorf (msg : GoString) : GoError := { isOpError := false, msg := msg }

/-- Formatting of an integer operand by `fmt` (verb `%v`): signed decimal. -/
def formatInt (n : Int) : GoString := str (toString n)

/-- Result of `fmt.Fprintln(w, ops...)`: the operands, each already formatted with `%v`, always
separated by one space, followed by a newline. -/
def Fprintln (ops : List GoString) : GoString :=
  (List.intersperse (str " ") ops).flatten ++ str "\n"

/-! ## The world outside the process -/

/-- An open local file as the process sees it: the bytes a sequence of reads delivers, the
size `Stat` reports, and the error that ends the reads in place of `io.EOF`, if any. -/
structure FileData where
  content : List UInt8
  size : Nat
  failure : Option GoError
deriving DecidableEq, Repr

/-- Result of `ssh.ParsePrivateKey`: a signer. -/
structure Signer where
  id : Nat
deriving DecidableEq, Repr

/-- Entries of `ssh.ClientConfig.Auth`. -/
inductive AuthMethod where
  | PublicKeys (sig : Signer)
  | Password (passwd : GoString)
deriving DecidableEq, Repr

/-- The fields of `ssh.ClientConfig` the source sets.  `HostKeyCallback` is the constant
function returning `nil` and carries no data. -/
structure ClientConfig where
  User : GoString
  Auth : List AuthMethod
  Timeout : Int
deriving DecidableEq, Repr

/-- An `*ssh.Client`: the connection it wraps and whether `Close` has been applied to it. -/
structure Client where
  conn : Nat
  closed : Bool
deriving DecidableEq, Repr

/-- An `*ssh.Session`. -/
structure Session where
  id : Nat
deriving DecidableEq, Repr

/-- Outcomes of the calls that leave the process. -/
structure World where
  /-- Outcome of `os.Open(path)`. -/
  openFile : GoString → Except GoError FileData
  /-- Outcome of `os.Create(path)`: `none` is success. -/
  createFile : GoString → Option GoError
  /-- Outcome of `ssh.ParsePrivateKey(buf)`. -/
  parsePrivateKey : List UInt8 → Except GoError Signer
  /-- Outcome of `ssh.Dial("tcp", host, config)`: the connection or the error. -/
  dial : GoString → ClientConfig → Except GoError Nat
  /-- Outcome of `client.NewSession()`. -/
  newSession : Client → Except GoError Session
  /-- Outcome of `session.CombinedOutput(cmd)`: the captured bytes and the error. -/
  combinedOutput : Session → GoString → GoString × Option GoError
  /-- Outcome of the call `session.StdinPipe()` that the goroutine of `SendFile` makes: `none`
  is success.  The call fails when `session.Run` has started the session before it. -/
  stdinPipe : Session → Option GoError
  /-- Outcome of `session.Run(cmd)`: the error (`none` is success) and, for the race with the
  goroutine that feeds the standard input of the session, the number of bytes the input has
  accepted when `Run` returns and the deferred `session.Close()` shuts it.  There `none` says
  that the goroutine has finished by then; the cut may fall at any byte. -/
  run : Session → GoString → Option GoError × Option Nat

/-! ## The transport `sshInfof` -/

/-- The struct `sshInfof`; `client = none` is the nil pointer. -/
structure sshInfof where
  host : GoString
  client : Option Client
  config : ClientConfig
deriving DecidableEq, Repr

/-- Method `Dial`: stores the result of `ssh.Dial` in `info.client` (nil on error). -/
def sshInfof.Dial (w : World) (info : sshInfof) : sshInfof × Option GoError :=
  match w.dial info.host info.config with
  | .ok conn => ({ info with client := some { conn := conn, closed := false } }, none)
  | .error e => ({ info with client := none }, some e)

/-- Stands for the run-time panic of a method call through a nil `*ssh.Client`.  It marks the
branch `info.client == nil` after a `Dial` that returned no error, which `Dial` excludes. -/
def nilDereference : GoError := Errorf (str "invalid memory address or nil pointer dereference")

/-- Method `SendCommand`: receiver after the call, returned bytes, returned error. -/
def sshInfof.SendCommand (w : World) (info : sshInfof) (cmd : GoString) :
    sshInfof × GoString × Option GoError :=
  let dialed : sshInfof × Option GoError :=
    match info.client with
    | none => info.Dial w
    | some _ => (info, none)
  match dialed with
  | (info1, some e) => (info1, [], some e)
  | (info1, none) =>
    match info1.client with
    | none => (info1, [], some nilDereference)
    | some cl =>
      match w.newSession cl with
      | .error e => (info1, [], some e)
      | .ok session =>
        let out := w.combinedOutput session cmd
        (info1, out.1, out.2)

/-- Method `Close`: closes the client if there is one. -/
def sshInfof.Close (info : sshInfof) : sshInfof :=
  match info.client with
  | some cl => { info with client := some { cl with closed := true } }
  | none => info

/-! ## The file push -/

/-- The write end of the session's standard input: the bytes the input has accepted, the
number of bytes it accepts from now on before it is shut (`none`: it stays open as long as
the goroutine runs), and whether the goroutine's `Close` has ended the stream. -/
structure Pipe where
  data : List UInt8
  room : Option Nat
  closed : Bool
deriving DecidableEq, Repr

/-- One `Write` on the pipe: the input accepts the bytes it has room for.  A write that is
cut short or refused returns an error, which every caller in `SendFile` drops. -/
def Pipe.write (p : Pipe) (bs : List UInt8) : Pipe :=
  if p.closed then p
  else
    match p.room with
    | none => { p with data := p.data ++ bs }
    | some n => { p with data := p.data ++ bs.take n, room := some (n - bs.length) }

/-- Method `Close` of the pipe: ends the stream, unless the input is shut already (the error
of that case is dropped as well). -/
def Pipe.close (p : Pipe) : Pipe :=
  if p.room = some 0 then p else { p with closed := true }

/-- What the goroutine started by `SendFile` did. -/
inductive Writer where
  /-- No goroutine was started. -/
  | notStarted
  /-- The call of `StdinPipe` failed, its error was dropped, and `Fprintln` was called on a
  nil writer, which panics. -/
  | nilWriter
  /-- The goroutine went through its statements and left the pipe in this state. -/
  | wrote (p : Pipe)
deriving DecidableEq, Repr

/-- Function `filepath.Base` for the separator `/`. -/
def filepathBase (path : GoString) : GoString :=
  if path = [] then str "."
  else
    let stripped := (path.reverse.dropWhile (fun b => b == 47)).reverse
    let last := (stripped.reverse.takeWhile (fun b => b != 47)).reverse
    if last = [] then str "/" else last

/-- Function `io.CopyN(dst, src, n)` from a freshly opened file: at most `n` bytes of what the
file delivers are written to `dst`, as far as `dst` accepts them; the copy stops at the
first write that fails. -/
def CopyN (dst : Pipe) (src : FileData) (n : Nat) : Pipe :=
  dst.write (src.content.take n)

/-- Body of the goroutine in `SendFile`, given the outcome of `session.StdinPipe()` and the
cut that `session.Run` reports.  The goroutine is not joined: it checks no error and goes
through all its statements, and what it writes after the input is shut is lost. -/
def stdinWriter (pipe : Option GoError) (cut : Option Nat) (name : GoString)
    (file : FileData) : Writer :=
  match pipe with
  | some _ => Writer.nilWriter
  | none =>
    let w0 : Pipe := { data := [], room := cut, closed := false }
    let w1 := w0.write (Fprintln [str "C0644", formatInt file.size, filepathBase name])
    let w2 := CopyN w1 file file.size
    let w3 := w2.write (str "\x00")
    Writer.wrote w3.close

/-- Method `SendFile`: receiver after the call, returned error, and the goroutine's effect.
When `Run` has returned, the deferred `session.Close()` runs, and after it the deferred
`File.Close()`: from the first of them on the input of the session accepts nothing, which is
the cut that `run` reports. -/
def sshInfof.SendFile (w : World) (info : sshInfof) (file dirpath : GoString) :
    sshInfof × Option GoError × Writer :=
  let dialed : sshInfof × Option GoError :=
    match info.client with
    | none => info.Dial w
    | some _ => (info, none)
  match dialed with
  | (info1, some e) => (info1, some e, Writer.notStarted)
  | (info1, none) =>
    match w.openFile file with
    | .error e => (info1, some e, Writer.notStarted)
    | .ok File =>
      match info1.client with
      | none => (info1, some nilDereference, Writer.notStarted)
      | some cl =>
        match w.newSession cl with
        | .error e => (info1, some e, Writer.notStarted)
        | .ok session =>
          let ran := w.run session (str "/usr/bin/scp -qrt " ++ dirpath)
          (info1, ran.1, stdinWriter (w.stdinPipe session) ran.2 file File)

/-! ## The per-host tasks -/

/-- What a task has done when it finishes: the transport, the writes it made to the sink `w`
(one entry per `Fprintf`), and whether `wait.Done()` ran. -/
structure TaskResult where
  c : sshInfof
  sink : List GoString
  done : Bool
deriving DecidableEq, Repr

/-- Record `"连接:%s失败,错误信息:%s\n"`. -/
def connectFailed (host msg : GoString) : GoString :=
  str "连接:" ++ host ++ str "失败,错误信息:" ++ msg ++ str "\n"

/-- Record `"主机:%s执行命令失败,错误信息:%s\n"`. -/
def commandFailed (host msg : GoString) : GoString :=
  str "主机:" ++ host ++ str "执行命令失败,错误信息:" ++ msg ++ str "\n"

/-- Record `"%s执行结果:\n%s\n"`. -/
def commandResult (host out : GoString) : GoString :=
  host ++ str "执行结果:\n" ++ out ++ str "\n"

/-- Record `"主机:%s发送文件失败,错误信息:%s\n"`. -/
def fileFailed (host msg : GoString) : GoString :=
  str "主机:" ++ host ++ str "发送文件失败,错误信息:" ++ msg ++ str "\n"

/-- Record `"%s发送文件成功 \n"`. -/
def fileSent (host : GoString) : GoString :=
  host ++ str "发送文件成功 \n"

/-- Function `sendcommand`. -/
def sendcommand (w : World) (cmd : GoString) (c : sshInfof) : TaskResult :=
  match c.SendCommand w cmd with
  | (c1, _, some err) =>
    if err.isOpError then
      { c := c1, sink := [connectFailed c1.host err.msg], done := true }
    else
      { c := c1, sink := [commandFailed c1.host err.msg], done := true }
  | (c1, buf, none) =>
    { c := c1, sink := [commandResult c1.host buf], done := true }

/-- Function `sendfile`.  After the `if err != nil` block there is no `return`: control
reaches the last `Fprintf` on every path. -/
def sendfile (w : World) (sfile dpath : GoString) (c : sshInfof) : TaskResult :=
  match c.SendFile w sfile dpath with
  | (c1, err, _) =>
    let sink1 : List GoString :=
      match err with
      | some e =>
        if e.isOpError then [connectFailed c1.host e.msg]
        else [fileFailed c1.host e.msg]
      | none => []
    { c := c1, sink := sink1 ++ [fileSent c1.host], done := true }

/-! ## Reading the list-file -/

/-- Constant `defaultBufSize` of package `bufio`, the buffer size `bufio.NewReader` uses. -/
def defaultBufSize : Nat := 4096

/-- A `bufio.Reader` over an open file: the bytes of the file not yet returned to the caller,
and the error the file delivers after them in place of `io.EOF`, if any. -/
structure Reader where
  rest : List UInt8
  failure : Option GoError
deriving DecidableEq, Repr

/-- The error result of a read: the sentinel `io.EOF` or another error. -/
inductive ReadErr where
  | EOF
  | failed (e : GoError)
deriving DecidableEq, Repr

/-- Method `ReadLine` of `bufio.Reader`: the line, the flag telling that the buffer filled up
before the end of the line was seen, the error, and the reader after the call.

`ReadSlice` looks for a newline in at most `defaultBufSize` unread bytes.  If there is one the
line ends there and loses its `\n` or `\r\n`.  If the buffer is full without one, the buffer
is returned as a fragment (a final `\r` is left to the next call).  Otherwise the file has
ended: the remaining bytes are the last line, and when none remain the pending error is
returned. -/
def ReadLine (b : Reader) : (GoString × Bool × Option ReadErr) × Reader :=
  let buf := b.rest.take defaultBufSize
  let head := buf.takeWhile (fun c => c != 10)
  if head.length < buf.length then
    let line := if head.getLast? = some 13 then head.dropLast else head
    ((line, false, none), { b with rest := b.rest.drop (head.length + 1) })
  else if defaultBufSize ≤ buf.length then
    if buf.getLast? = some 13 then
      ((buf.dropLast, true, none), { b with rest := b.rest.drop (defaultBufSize - 1) })
    else
      ((buf, true, none), { b with rest := b.rest.drop defaultBufSize })
  else if b.rest = [] then
    match b.failure with
    | none => (([], false, some ReadErr.EOF), b)
    | some e => (([], false, some (ReadErr.failed e)), b)
  else
    ((b.rest, false, none), { b with rest := [] })

/-- Second, third and fourth byte of a UTF-8 sequence: `10xxxxxx`. -/
def isContinuation (b : UInt8) : Bool := 0x80 ≤ b.toNat && b.toNat ≤ 0xBF

/-- Function `utf8.DecodeRuneInString`: the rune at the start of `s` and its width in bytes;
an ill-formed sequence decodes as `U+FFFD` of width 1. -/
def decodeRune : GoString → Nat × Nat
  | [] => (0xFFFD, 0)
  | b0 :: rest =>
    let x := b0.toNat
    if x < 0x80 then (x, 1)
    else if 0xC2 ≤ x && x ≤ 0xDF then
      match rest with
      | b1 :: _ =>
        if isContinuation b1 then ((x % 32) * 64 + b1.toNat % 64, 2) else (0xFFFD, 1)
      | _ => (0xFFFD, 1)
    else if 0xE0 ≤ x && x ≤ 0xEF then
      match rest with
      | b1 :: b2 :: _ =>
        let lo := if x = 0xE0 then 0xA0 else 0x80
        let hi := if x = 0xED then 0x9F else 0xBF
        if lo ≤ b1.toNat && b1.toNat ≤ hi && isContinuation b2 then
          ((x % 16) * 4096 + (b1.toNat % 64) * 64 + b2.toNat % 64, 3)
        else (0xFFFD, 1)
      | _ => (0xFFFD, 1)
    else if 0xF0 ≤ x && x ≤ 0xF4 then
      match rest with
      | b1 :: b2 :: b3 :: _ =>
        let lo := if x = 0xF0 then 0x90 else 0x80
        let hi := if x = 0xF4 then 0x8F else 0xBF
        if lo ≤ b1.toNat && b1.toNat ≤ hi && isContinuation b2 && isContinuation b3 then
          ((x % 8) * 262144 + (b1.toNat % 64) * 4096 + (b2.toNat % 64) * 64 + b3.toNat % 64, 4)
        else (0xFFFD, 1)
      | _ => (0xFFFD, 1)
    else (0xFFFD, 1)

/-- Function `unicode.IsSpace`. -/
def IsSpace (r : Nat) : Bool :=
  r == 0x09 || r == 0x0A || r == 0x0B || r == 0x0C || r == 0x0D || r == 0x20 || r == 0x85
    || r == 0xA0 || r == 0x1680 || (0x2000 ≤ r && r ≤ 0x200A) || r == 0x2028 || r == 0x2029
    || r == 0x202F || r == 0x205F || r == 0x3000

/-- Loop of `strings.FieldsFunc(s, unicode.IsSpace)` over the bytes of `s`: `skip` counts the
bytes still belonging to the rune decoded last, `space` tells whether that rune is white
space, `cur` is the field being collected. -/
def Fields.loop : GoString → Nat → Bool → Option GoString → List GoString
  | [], _, _, cur => cur.toList
  | b :: s, 0, _, cur =>
    let rw := decodeRune (b :: s)
    if IsSpace rw.1 then cur.toList ++ Fields.loop s (rw.2 - 1) true none
    else Fields.loop s (rw.2 - 1) false (some (cur.getD [] ++ [b]))
  | b :: s, k + 1, space, cur =>
    if space then Fields.loop s k true none
    else Fields.loop s k false (some (cur.getD [] ++ [b]))

/-- Function `strings.Fields`: the maximal runs of runes that are not white space (its fast
path for ASCII input computes the same result). -/
def Fields (s : GoString) : List GoString := Fields.loop s 0 false none

/-- What `FileLine` hands back: the rows, the error, and the lines it printed. -/
structure FileLineResult where
  list : List (List GoString)
  err : Option GoError
  printed : List GoString
deriving DecidableEq, Repr

/-- The `for` loop of `FileLine`, run for at most `fuel` calls of `ReadLine`; `none` means
the loop was still running when the fuel ran out. -/
def FileLine.loop (count : Int) : Nat → Reader → List (List GoString) → List GoString →
    Option FileLineResult
  | 0, _, _, _ => none
  | fuel + 1, buf, list, printed =>
    match ReadLine buf with
    | ((_, _, some ReadErr.EOF), _) => some { list := list, err := none, printed := printed }
    | ((_, _, some (ReadErr.failed e)), _) =>
      some { list := list, err := some e, printed := printed }
    | ((line, _, none), buf1) =>
      let l := Fields line
      if (l.length : Int) = count then
        FileLine.loop count fuel buf1 (list ++ [l]) printed
      else
        FileLine.loop count fuel buf1 list (printed ++ [str "无效的数据:" ++ line ++ str "\n"])

/-- Function `FileLine`, with fuel: every call of `ReadLine` that returns no error consumes
at least one byte, so one call more than the file has bytes is enough. -/
def FileLine.run (w : World) (path : GoString) (count : Int) : Option FileLineResult :=
  match w.openFile path with
  | .error e => some { list := [], err := some e, printed := [] }
  | .ok File =>
    FileLine.loop count (File.content.length + 1)
      { rest := File.content, failure := File.failure } [] []

/-- Function `FileLine`.  The default is never used: `FileLine.run` always returns. -/
def FileLine (w : World) (path : GoString) (count : Int) : FileLineResult :=
  (FileLine.run w path count).getD { list := [], err := none, printed := [] }

/-! ## The command `ssh` -/

/-- The struct `ssh_config`, the type of the global `_ssh` that the flags fill in. -/
structure ssh_config where
  config : GoString
  out : GoString
  hosts : GoString
  cmd : GoString
  sfile : GoString
  dpath : GoString
  user : GoString
  passwd : GoString
  privatekey : GoString
  timeout : Int
  hostfile : Bool
deriving DecidableEq, Repr

/-- Conversion to `int64` (two's complement wrap-around). -/
def wrapInt64 (x : Int) : Int := (x + 2 ^ 63) % 2 ^ 64 - 2 ^ 63

/-- Function `ioutil.ReadFile`: the whole content, or the error of opening or reading. -/
def ReadFile (w : World) (path : GoString) : Except GoError (List UInt8) :=
  match w.openFile path with
  | .error e => .error e
  | .ok File =>
    match File.failure with
    | some e => .error e
    | none => .ok File.content

/-- Function `newsshInfo`; `info = none` is the nil pointer. -/
def newsshInfo (w : World) (info : Option ssh_config) (host : GoString) :
    Except GoError sshInfof :=
  match info with
  | none => .error (Errorf (str "base config can't null"))
  | some info =>
    let cfg : ClientConfig :=
      { User := info.user, Auth := [], Timeout := wrapInt64 (wrapInt64 info.timeout * 1000000000) }
    let keyed : Except GoError ClientConfig :=
      if info.privatekey ≠ [] then
        match ReadFile w info.privatekey with
        | .error err => .error (Errorf (str "Read private key error:" ++ err.msg))
        | .ok buf =>
          match w.parsePrivateKey buf with
          | .error err => .error (Errorf (str "Parse private key error:" ++ err.msg))
          | .ok sig => .ok { cfg with Auth := cfg.Auth ++ [AuthMethod.PublicKeys sig] }
      else .ok cfg
    match keyed with
    | .error e => .error e
    | .ok cfg1 =>
      let cfg2 : ClientConfig :=
        if info.passwd ≠ [] then { cfg1 with Auth := cfg1.Auth ++ [AuthMethod.Password info.passwd] }
        else cfg1
      .ok { host := host, client := none, config := cfg2 }

/-- Function `strings.Split(s, sep)` for a separator of one byte. -/
def Split (sep : UInt8) : GoString → List GoString
  | [] => [[]]
  | b :: s =>
    if b = sep then [] :: Split sep s
    else
      match Split sep s with
      | [] => [[b]]
      | x :: xs => (b :: x) :: xs

/-- A goroutine started by `ssh_run` (the wait group and the sink are the same for all). -/
inductive Task where
  /-- Statement `go sendcommand(_ssh.cmd, wait, c, output)`. -/
  | command (cmd : GoString) (c : sshInfof)
  /-- Statement `go sendfile(_ssh.sfile, _ssh.dpath, wait, c, output)`. -/
  | file (sfile dpath : GoString) (c : sshInfof)
deriving DecidableEq, Repr

/-- What a run of `ssh_run` has done when it returns: the returned error, the lines printed
on standard output, the hosts `newsshInfo` was called for, the goroutines started, and the
global `_ssh` as the run left it. -/
structure RunResult where
  ret : Option GoError
  stdout : List GoString
  calls : List GoString
  tasks : List Task
  cfg : ssh_config
deriving DecidableEq, Repr

/-- Lines 66-77 of `ssh_run`: the slices `host` (`none` is the nil slice) and `hosts`, the
error of `FileLine`, and what `FileLine` printed. -/
structure Resolved where
  host : Option (List GoString)
  hosts : List (List GoString)
  err : Option GoError
  printed : List GoString
deriving DecidableEq, Repr

/-- Lines 66-77 of `ssh_run`.  A row `h` of `FileLine(_, 1)` has one field, so `h[0]` exists. -/
def ssh_run.resolve (w : World) (cfg : ssh_config) : Resolved :=
  if cfg.hosts ≠ [] ∧ cfg.hostfile = false then
    { host := some (Split 44 cfg.hosts), hosts := [], err := none, printed := [] }
  else if cfg.hostfile then
    let r := FileLine w cfg.config 1
    { host := some (r.list.map (fun h => h.getD 0 [])), hosts := r.list, err := r.err,
      printed := r.printed }
  else
    let r := FileLine w cfg.config 3
    { host := none, hosts := r.list, err := r.err, printed := r.printed }

/-- The `if _ssh.cmd != ""` that chooses the goroutine, lines 115-119 and 132-136. -/
def ssh_run.launch (cfg : ssh_config) (c : sshInfof) : Task :=
  if cfg.cmd ≠ [] then Task.command cfg.cmd c else Task.file cfg.sfile cfg.dpath c

/-- Lines 108-120 of `ssh_run`: the loop over `host`. -/
def ssh_run.hostLoop (w : World) : List GoString → RunResult → RunResult
  | [], r => r
  | h :: hs, r =>
    match newsshInfo w (some r.cfg) h with
    | .error err =>
      { r with stdout := r.stdout ++ [err.msg ++ str "\n"], calls := r.calls ++ [h] }
    | .ok c =>
      ssh_run.hostLoop w hs
        { r with calls := r.calls ++ [h], tasks := r.tasks ++ [ssh_run.launch r.cfg c] }

/-- Lines 122-137 of `ssh_run`: the loop over `hosts`, which overwrites `_ssh.user` and
`_ssh.passwd`.  A row of `FileLine(_, 3)` has three fields, so `info[0..2]` exist. -/
def ssh_run.rowLoop (w : World) : List (List GoString) → RunResult → RunResult
  | [], r => r
  | info :: rest, r =>
    let cfg1 : ssh_config := { r.cfg with user := info.getD 1 [], passwd := info.getD 2 [] }
    match newsshInfo w (some cfg1) (info.getD 0 []) with
    | .error err =>
      { r with stdout := r.stdout ++ [err.msg ++ str "\n"], calls := r.calls ++ [info.getD 0 []],
               cfg := cfg1 }
    | .ok c =>
      ssh_run.rowLoop w rest
        { r with calls := r.calls ++ [info.getD 0 []],
                 tasks := r.tasks ++ [ssh_run.launch cfg1 c], cfg := cfg1 }

/-- Function `ssh_run`, the body of the command, run on the global `_ssh = cfg`. -/
def ssh_run (w : World) (cfg : ssh_config) : RunResult :=
  let r0 : RunResult := { ret := none, stdout := [], calls := [], tasks := [], cfg := cfg }
  if cfg.hosts = [] ∧ cfg.config = [] then
    { r0 with ret := some (Errorf (str "参数错误,必须指定主机地址或主机配置文件")) }
  else
    let res := ssh_run.resolve w cfg
    let r1 : RunResult := { r0 with stdout := res.printed }
    match res.err with
    | some err => { r1 with stdout := r1.stdout ++ [str "读取主机列表失败," ++ err.msg ++ str "\n"] }
    | none =>
      if (res.host.getD []).length ≤ 0 ∧ res.hosts.length ≤ 0 then
        { r1 with stdout := r1.stdout ++ [str "主机列表为空\n"] }
      else
        let created : Option GoError := if cfg.out ≠ [] then w.createFile cfg.out else none
        match created with
        | some err =>
          { r1 with stdout := r1.stdout ++ [str "创建结果文件失败:" ++ err.msg ++ str "\n"] }
        | none =>
          if cfg.cmd = [] ∧ (cfg.sfile = [] ∨ cfg.dpath = []) then
            { r1 with ret := some (Errorf (str "参数错误\n")) }
          else
            match res.host with
            | some host =>
              if cfg.user = [] ∨ cfg.passwd = [] ∧ cfg.privatekey = [] then
                { r1 with ret := some (Errorf (str "必须指定用户名,密码或私钥")) }
              else ssh_run.hostLoop w host r1
            | none => ssh_run.rowLoop w res.hosts r1

/-! ## The rows the specification describes -/

/-- Removes the carriage return that ends a line, if there is one. -/
def dropCR (l : GoString) : GoString := if l.getLast? = some 13 then l.dropLast else l

/-- Loop of `Lines`: `cur` is the line collected so far. -/
def Lines.loop : List UInt8 → GoString → List GoString
  | [], cur => if cur = [] then [] else [cur]
  | b :: s, cur => if b = 10 then dropCR cur :: Lines.loop s [] else Lines.loop s (cur ++ [b])

/-- The lines of a text file: a line ends at `\n` or `\r\n`, which is not part of it; the
bytes after the last newline, if any, are the last line. -/
def Lines (content : List UInt8) : List GoString := Lines.loop content []

/-- The rows the specification describes: the white-space-split lines that have exactly `n`
fields, in file order. -/
def rowsWith (content : List UInt8) (n : Int) : List (List GoString) :=
  ((Lines content).map Fields).filter (fun l => decide ((l.length : Int) = n))

/-- The stream the specification describes for the push of the file at `path`: the header
line `C0644`, size in decimal, base name; the content; one NUL byte. -/
def frameOf (path : GoString) (content : List UInt8) : GoString :=
  str "C0644 " ++ str (toString content.length) ++ str " " ++ filepathBase path ++ str "\n"
    ++ content ++ [0]

/-! ## Predicates used in the statements -/

/-- The run of `ssh_run` reaches the operation check of line 99: a host source is given
(line 63), the host list is read without error (line 78) and is not empty (line 83), and
the result file, if one is asked for, is created (line 94). -/
def ssh_run.reachesCheck (w : World) (cfg : ssh_config) : Bool :=
  decide (¬ (cfg.hosts = [] ∧ cfg.config = [])
    ∧ (ssh_run.resolve w cfg).err = none
    ∧ ¬ (((ssh_run.resolve w cfg).host.getD []).length ≤ 0
          ∧ (ssh_run.resolve w cfg).hosts.length ≤ 0)
    ∧ (cfg.out = [] ∨ w.createFile cfg.out = none))

/-- The two configurations choose the same operation. -/
def sameOperation (a b : ssh_config) : Prop :=
  a.cmd = b.cmd ∧ a.sfile = b.sfile ∧ a.dpath = b.dpath

/-- The private-key file at `path` cannot be read, or its content does not parse. -/
def keyFails (w : World) (path : GoString) : Bool :=
  match ReadFile w path with
  | .error _ => true
  | .ok buf =>
    match w.parsePrivateKey buf with
    | .error _ => true
    | .ok _ => false

/-- The text is one of the two key errors of `newsshInfo`. -/
def isKeyErrorText (msg : GoString) : Prop :=
  ∃ m, msg = str "Read private key error:" ++ m ∨ msg = str "Parse private key error:" ++ m

/-- The loop stopped at its first host with a key error, or never ran. -/
def stoppedOnKey (r0 r : RunResult) : Prop :=
  r.ret = r0.ret ∧ r.tasks = r0.tasks ∧
    (r.calls = r0.calls ∨
      ∃ h msg, r.calls = r0.calls ++ [h] ∧ isKeyErrorText msg
        ∧ r.stdout = r0.stdout ++ [msg ++ str "\n"])

/-! ## Worlds and configurations for the concrete cases -/

/-- A world in which every remote call succeeds and no local file exists. -/
def quiet : World :=
  { openFile := fun _ => .error (Errorf (str "no such file or directory")),
    createFile := fun _ => none,
    parsePrivateKey := fun _ => .ok { id := 1 },
    dial := fun _ _ => .ok 7,
    newSession := fun _ => .ok { id := 1 },
    combinedOutput := fun _ _ => (str "ok", none),
    stdinPipe := fun _ => none,
    run := fun _ _ => (none, none) }

/-- The error of a refused TCP connection, a `*net.OpError`. -/
def refusedErr : GoError :=
  { isOpError := true, msg := str "dial tcp 10.0.0.1:22: connect: connection refused" }

/-- A world in which the host refuses the connection. -/
def refused : World := { quiet with dial := fun _ _ => .error refusedErr }

/-- The error `ssh.Dial` returns when the TCP connection is up and the ssh handshake fails;
package `ssh` builds it with `fmt.Errorf`. -/
def handshakeErr : GoError :=
  Errorf (str "ssh: handshake failed: ssh: unable to authenticate")

/-- A world in which `ssh.Dial` fails in the handshake. -/
def handshake : World := { quiet with dial := fun _ _ => .error handshakeErr }

/-- The transport `newsshInfo` builds for a password login with the default timeout. -/
def transport (host user passwd : String) : sshInfof :=
  { host := str host, client := none,
    config := { User := str user, Auth := [AuthMethod.Password (str passwd)],
                Timeout := 30000000000 } }

/-- The transport of `root` with password `pw1` at `10.0.0.1:22`, not yet dialed. -/
def target : sshInfof := transport "10.0.0.1:22" "root" "pw1"

/-- A world with the local files `/src/main.go`, three bytes long, and `/src/empty`. -/
def withFile : World :=
  { quiet with
    openFile := fun p =>
      if p = str "/src/main.go" then .ok { content := str "hi\n", size := 3, failure := none }
      else if p = str "/src/empty" then .ok { content := [], size := 0, failure := none }
      else .error (Errorf (str "no such file or directory")) }

/-- The world `withFile` when the remote command ends at once with an error: `Run` returns,
and the input of the session is shut, when the 16 bytes of the header have been accepted. -/
def cutShort : World :=
  { withFile with
    run := fun _ _ => (some (Errorf (str "Process exited with status 1")), some 16) }

/-- The world `withFile` when `Run` starts the session before the goroutine asks for the
input pipe. -/
def lateWriter : World :=
  { withFile with
    stdinPipe := fun _ => some (Errorf (str "ssh: StdinPipe after process started")) }

/-- A world in which the result file cannot be created. -/
def noSink : World :=
  { quiet with createFile := fun _ => some (Errorf (str "permission denied")) }

/-- A world with the list-files `iplist` (three fields a row) and `hosts.txt` (one field). -/
def listed : World :=
  { quiet with
    openFile := fun p =>
      if p = str "iplist" then
        .ok { content := str "10.0.0.1:22 root pw1\n10.0.0.2:22 root pw2\n", size := 42,
              failure := none }
      else if p = str "hosts.txt" then
        .ok { content := str "10.0.0.1:22\n10.0.0.2:22\n", size := 24, failure := none }
      else .error (Errorf (str "open " ++ p ++ str ": no such file or directory")) }

/-- Flags `-c ls -u root -p pw1 -H 10.0.0.1:22`. -/
def byFlags : ssh_config :=
  { config := [], out := [], hosts := str "10.0.0.1:22", cmd := str "ls", sfile := [],
    dpath := [], user := str "root", passwd := str "pw1", privatekey := [], timeout := 30,
    hostfile := false }

/-- Flags `-C iplist -c ls`. -/
def byList : ssh_config :=
  { config := str "iplist", out := [], hosts := [], cmd := str "ls", sfile := [],
    dpath := [], user := [], passwd := [], privatekey := [], timeout := 30,
    hostfile := false }

/-- Flags `-c ls -u root -P id_rsa -H 10.0.0.1:22,10.0.0.2:22`. -/
def byKey : ssh_config :=
  { byFlags with passwd := [], privatekey := str "id_rsa",
                 hosts := str "10.0.0.1:22,10.0.0.2:22" }

/-- A world whose file `id_rsa` is readable and is not a private key. -/
def badKey : World :=
  { quiet with
    openFile := fun p =>
      if p = str "id_rsa" then .ok { content := str "not a key", size := 9, failure := none }
      else .error (Errorf (str "no such file or directory")),
    parsePrivateKey := fun _ => .error (Errorf (str "ssh: no key found")) }

/-- A list-file that is one line of 4097 letters `a`. -/
def longLine : FileData :=
  { content := List.replicate 4097 97, size := 4097, failure := none }

/-- A world in which every path opens `longLine`. -/
def longWorld : World := { quiet with openFile := fun _ => .ok longLine }

/-- A world in which every path opens the list-file of the specification's example: three
lines, the second of them malformed. -/
def sample : World :=
  { quiet with
    openFile := fun _ =>
      .ok { content := str "10.0.0.1 root pw1\nbadrow\n10.0.0.2 root pw2", size := 42,
            failure := none } }

/-! ## The transport and the per-host tasks -/

theorem SendCommand_host (w : World) (c : sshInfof) (cmd : GoString) :
    (c.SendCommand w cmd).1.host = c.host := by
  unfold sshInfof.SendCommand sshInfof.Dial
  cases hc : c.client <;> simp only []
  · cases hd : w.dial c.host c.config <;> simp
    cases hn : w.newSession _ <;> simp
  · rename_i cl
    cases hn : w.newSession cl <;> simp [hc, hn]

theorem SendFile_host (w : World) (c : sshInfof) (file dirpath : GoString) :
    (c.SendFile w file dirpath).1.host = c.host := by
  unfold sshInfof.SendFile sshInfof.Dial
  cases hc : c.client <;> simp only []
  · cases hd : w.dial c.host c.config <;> simp
    cases ho : w.openFile file <;> simp
    cases hn : w.newSession _ <;> simp
  · cases ho : w.openFile file <;> simp [hc]
    cases hn : w.newSession _ <;> simp

/-- The connect-failure record and the command-failure record differ in their first byte. -/
theorem connectFailed_ne_commandFailed (h m h' m' : GoString) :
    connectFailed h m ≠ commandFailed h' m' := by
  have h1 : str "连接:" = [232, 191, 158, 230, 142, 165, 58] := by decide
  have h2 : str "主机:" = [228, 184, 187, 230, 156, 186, 58] := by decide
  simp [connectFailed, commandFailed, h1, h2]

/-- The client of the transport after `SendCommand` is the one it had before, or a freshly
dialed one to which `Close` has not been applied. -/
theorem SendCommand_client (w : World) (c : sshInfof) (cmd : GoString) (cl : Client)
    (h : (c.SendCommand w cmd).1.client = some cl) :
    c.client = some cl ∨ (c.client = none ∧ cl.closed = false) := by
  unfold sshInfof.SendCommand sshInfof.Dial at h
  cases hc : c.client with
  | none =>
    simp only [hc] at h
    cases hd : w.dial c.host c.config with
    | error e => simp [hd] at h
    | ok conn =>
      simp only [hd] at h
      cases hn : w.newSession { conn := conn, closed := false } <;> simp [hn] at h <;>
        simp [← h]
  | some cl0 =>
    simp only [hc] at h
    cases hn : w.newSession cl0 <;> simp [hn, hc] at h <;> simp [h]

/-- The client of the transport after `SendFile` is the one it had before, or a freshly
dialed one to which `Close` has not been applied. -/
theorem SendFile_client (w : World) (c : sshInfof) (file dirpath : GoString) (cl : Client)
    (h : (c.SendFile w file dirpath).1.client = some cl) :
    c.client = some cl ∨ (c.client = none ∧ cl.closed = false) := by
  unfold sshInfof.SendFile sshInfof.Dial at h
  cases hc : c.client with
  | none =>
    simp only [hc] at h
    cases hd : w.dial c.host c.config with
    | error e => simp [hd] at h
    | ok conn =>
      simp only [hd] at h
      cases ho : w.openFile file with
      | error e => simp [ho] at h; simp [← h]
      | ok f =>
        simp only [ho] at h
        cases hn : w.newSession { conn := conn, closed := false } <;> simp [hn] at h <;>
          simp [← h]
  | some cl0 =>
    simp only [hc] at h
    cases ho : w.openFile file with
    | error e => simp [ho, hc] at h; simp [h]
    | ok f =>
      simp only [ho] at h
      cases hn : w.newSession cl0 <;> simp [hn, hc] at h <;> simp [h]

/-- C1 (the code departs from the claim): when `SendFile` returns an error, `sendfile`
writes the failure record and then the success record as well.  In the world `refused` the
dial is refused, `SendFile` returns that error, and the sink receives two records, the
second of which is the success record; on every world the last record `sendfile` writes is
the success record, whatever `SendFile` returned. -/
theorem sendfile_reports_success_after_failure :
    (target.SendFile refused (str "main.go") (str "/tmp")).2.1 = some refusedErr
    ∧ (sendfile refused (str "main.go") (str "/tmp") target).sink
        = [connectFailed target.host refusedErr.msg, fileSent target.host]
    ∧ ∀ (w : World) (sfile dpath : GoString) (c : sshInfof),
        (sendfile w sfile dpath c).sink.getLast? = some (fileSent c.host) := by
  refine ⟨by decide, by decide, ?_⟩
  intro w sfile dpath c
  simp [sendfile, SendFile_host]

/-- C2 (counterexample): an error produced at the dial stage that is not a `*net.OpError`
is reported with the operation-failure record.  In the world `handshake` the transport has
no connection, `ssh.Dial` fails with the handshake error, and `sendcommand` writes the
command-failure record, not the connect-failure record. -/
theorem sendcommand_dial_error_reported_as_command_failure :
    target.client = none
    ∧ handshake.dial target.host target.config = .error handshakeErr
    ∧ (sendcommand handshake (str "ls") target).sink
        = [commandFailed target.host handshakeErr.msg]
    ∧ (sendcommand handshake (str "ls") target).sink
        ≠ [connectFailed target.host handshakeErr.msg] := by
  refine ⟨rfl, rfl, by decide, by decide⟩

/-- C2 (amended): for every error `e` returned by `SendCommand`, `sendcommand` writes the
connect-failure record exactly when the dynamic type of `e` is `*net.OpError`, and the
command-failure record exactly when it is not, at whatever stage `e` was produced. -/
theorem sendcommand_classifies_by_error_type (w : World) (cmd : GoString) (c : sshInfof)
    (e : GoError) (h : (c.SendCommand w cmd).2.2 = some e) :
    ((sendcommand w cmd c).sink = [connectFailed c.host e.msg] ↔ e.isOpError = true)
    ∧ ((sendcommand w cmd c).sink = [commandFailed c.host e.msg] ↔ e.isOpError = false) := by
  have hh := SendCommand_host w c cmd
  have hne := connectFailed_ne_commandFailed c.host e.msg c.host e.msg
  unfold sendcommand
  rcases hr : c.SendCommand w cmd with ⟨c1, buf, err⟩
  rw [hr] at h hh
  simp only at h hh
  subst h
  cases hb : e.isOpError <;> simp [hb, hh, hne, Ne.symm hne]

/-- C2 (witness): the refused connection, a `*net.OpError`, gets the connect-failure
record. -/
theorem sendcommand_classifies_by_error_type_witness :
    ((sendcommand refused (str "ls") target).sink
        = [connectFailed target.host refusedErr.msg] ↔ refusedErr.isOpError = true)
    ∧ ((sendcommand refused (str "ls") target).sink
        = [commandFailed target.host refusedErr.msg] ↔ refusedErr.isOpError = false) :=
  sendcommand_classifies_by_error_type refused (str "ls") target refusedErr (by decide)

/-- Three writes and a `Close` on a pipe that is never shut. -/
theorem Pipe_writes_open (a b c : List UInt8) :
    Pipe.close
        (((({ data := [], room := none, closed := false } : Pipe).write a).write b).write c)
      = { data := a ++ (b ++ c), room := none, closed := true } := by
  simp [Pipe.write, Pipe.close]

/-- Three writes and a `Close` on a pipe that is shut after `n` bytes. -/
theorem Pipe_writes_cut (n : Nat) (a b c : List UInt8) :
    Pipe.close
        (((({ data := [], room := some n, closed := false } : Pipe).write a).write b).write c)
      = { data := (a ++ (b ++ c)).take n, room := some (n - (a ++ (b ++ c)).length),
          closed := decide ((a ++ (b ++ c)).length < n) } := by
  have ht : a.take n ++ (b.take (n - a.length) ++ c.take (n - a.length - b.length))
      = (a ++ (b ++ c)).take n := by
    rw [List.take_append_eq_append_take, List.take_append_eq_append_take]
  have hl : (a ++ (b ++ c)).length = a.length + b.length + c.length := by
    simp [Nat.add_assoc]
  have hr : n - a.length - b.length - c.length = n - (a.length + b.length + c.length) := by
    omega
  simp only [Pipe.write, Pipe.close, Bool.false_eq_true, if_false, List.nil_append,
    List.append_assoc, ht, hl, hr, Option.some.injEq]
  by_cases hn : a.length + b.length + c.length < n
  · have hne : n - (a.length + b.length + c.length) ≠ 0 := by omega
    simp [hne, hn]
  · have he : n - (a.length + b.length + c.length) = 0 := by omega
    simp [he, hn]

/-- The goroutine's writes when it has the pipe: with no cut the pipe holds the whole frame
and is closed; with the input shut after `n` bytes it holds the first `n` bytes of the
frame, and it is closed only if the frame is shorter than `n`. -/
theorem stdinWriter_stream (p : GoString) (f : FileData) (hsize : f.size = f.content.length) :
    stdinWriter none none p f
        = Writer.wrote { data := frameOf p f.content, room := none, closed := true }
    ∧ ∀ n, stdinWriter none (some n) p f
        = Writer.wrote { data := (frameOf p f.content).take n,
                         room := some (n - (frameOf p f.content).length),
                         closed := decide ((frameOf p f.content).length < n) } := by
  have h1 : str "C0644 " = str "C0644" ++ str " " := by decide
  have h0 : str "\x00" = [0] := by decide
  have hi : toString (f.content.length : Int) = toString f.content.length := rfl
  have hframe : frameOf p f.content
      = Fprintln [str "C0644", formatInt f.size, filepathBase p]
          ++ (f.content.take f.size ++ str "\x00") := by
    simp [frameOf, Fprintln, formatInt, hsize, h1, h0, hi, List.intersperse]
  rw [hframe]
  constructor
  · exact congrArg Writer.wrote (Pipe_writes_open _ _ _)
  · intro n
    exact congrArg Writer.wrote (Pipe_writes_cut n _ _ _)

/-- C3 (counterexample): the stream is not always the whole frame.  In the world `cutShort`
the remote command ends with an error when the header has been accepted: `SendFile` returns
that error, the input of the session holds the 16 bytes of the header and neither the
content nor the NUL byte, and the goroutine's `Close` comes too late.  In the world
`lateWriter` the goroutine asks for the pipe after `Run` has started the session: the call
fails, its error is dropped and nothing is written.  In the world `refused` there is no
connection, hence no session, and no goroutine is started. -/
theorem SendFile_stream_cut_short :
    (target.SendFile cutShort (str "/src/main.go") (str "/tmp")).2.1
        = some (Errorf (str "Process exited with status 1"))
    ∧ (target.SendFile cutShort (str "/src/main.go") (str "/tmp")).2.2
        = Writer.wrote { data := str "C0644 3 main.go\n", room := some 0, closed := false }
    ∧ frameOf (str "/src/main.go") (str "hi\n") = str "C0644 3 main.go\nhi\n" ++ [0]
    ∧ (target.SendFile lateWriter (str "/src/main.go") (str "/tmp")).2.2 = Writer.nilWriter
    ∧ (target.SendFile refused (str "/src/main.go") (str "/tmp")).2.2 = Writer.notStarted := by
  refine ⟨by decide, by decide, by decide, by decide, by decide⟩

/-- C3 (amended): when `SendFile` has a connection (the one it holds or the one it dials),
opens the local file `p`, whose size is the length `S` of its content, gets a session, and
the goroutine gets its input pipe, the bytes the input of the session accepts are a
beginning of the frame: the header `C0644 S basename(p)` ended by a newline, the `S` bytes
of the content, one NUL byte.  When the goroutine finishes before `Run` returns they are
exactly the frame, after which the input stream is closed.  When `Run` returns, and the
input is shut, after `n` bytes, they are the first `n` bytes of the frame, and the stream
is closed by the goroutine only if the frame is shorter than `n`. -/
theorem SendFile_stdin_stream (w : World) (info : sshInfof) (p dirpath : GoString)
    (f : FileData) (cl : Client) (s : Session)
    (hconn : info.client = some cl ∨
      (info.client = none ∧ ∃ conn, w.dial info.host info.config = .ok conn
        ∧ cl = { conn := conn, closed := false }))
    (hopen : w.openFile p = .ok f) (hsize : f.size = f.content.length)
    (hsess : w.newSession cl = .ok s) (hpipe : w.stdinPipe s = none) :
    ((w.run s (str "/usr/bin/scp -qrt " ++ dirpath)).2 = none →
        (info.SendFile w p dirpath).2.2
          = Writer.wrote { data := frameOf p f.content, room := none, closed := true })
    ∧ (∀ n, (w.run s (str "/usr/bin/scp -qrt " ++ dirpath)).2 = some n →
        (info.SendFile w p dirpath).2.2
          = Writer.wrote { data := (frameOf p f.content).take n,
                           room := some (n - (frameOf p f.content).length),
                           closed := decide ((frameOf p f.content).length < n) }) := by
  have hw := stdinWriter_stream p f hsize
  have hS : (info.SendFile w p dirpath).2.2
      = stdinWriter none (w.run s (str "/usr/bin/scp -qrt " ++ dirpath)).2 p f := by
    unfold sshInfof.SendFile sshInfof.Dial
    rcases hconn with hc | ⟨hc, conn, hd, rfl⟩
    · simp [hc, hopen, hsess, hpipe]
    · simp [hc, hd, hopen, hsess, hpipe]
  refine ⟨fun h => ?_, fun n h => ?_⟩
  · rw [hS, h]; exact hw.1
  · rw [hS, h]; exact hw.2 n

/-- C3 (witness): the whole frame for the three-byte file `/src/main.go` and for the empty
file `/src/empty` when the goroutine finishes first, and the header alone when `Run`
returns after 16 bytes. -/
theorem SendFile_stdin_stream_witness :
    (target.SendFile withFile (str "/src/main.go") (str "/tmp")).2.2
        = Writer.wrote { data := str "C0644 3 main.go\nhi\n" ++ [0], room := none,
                         closed := true }
    ∧ (target.SendFile withFile (str "/src/empty") (str "/tmp")).2.2
        = Writer.wrote { data := str "C0644 0 empty\n" ++ [0], room := none, closed := true }
    ∧ (target.SendFile cutShort (str "/src/main.go") (str "/tmp")).2.2
        = Writer.wrote { data := (str "C0644 3 main.go\nhi\n" ++ [0]).take 16,
                         room := some 0, closed := false } :=
  ⟨((SendFile_stdin_stream withFile target (str "/src/main.go") (str "/tmp")
      { content := str "hi\n", size := 3, failure := none } { conn := 7, closed := false }
      { id := 1 } (Or.inr ⟨rfl, 7, rfl, rfl⟩) (by rfl) (by decide) rfl rfl).1 rfl).trans
      (by decide),
   ((SendFile_stdin_stream withFile target (str "/src/empty") (str "/tmp")
      { content := [], size := 0, failure := none } { conn := 7, closed := false }
      { id := 1 } (Or.inr ⟨rfl, 7, rfl, rfl⟩) (by rfl) (by decide) rfl rfl).1 rfl).trans
      (by decide),
   ((SendFile_stdin_stream cutShort target (str "/src/main.go") (str "/tmp")
      { content := str "hi\n", size := 3, failure := none } { conn := 7, closed := false }
      { id := 1 } (Or.inr ⟨rfl, 7, rfl, rfl⟩) (by rfl) (by decide) rfl rfl).2 16 rfl).trans
      (by decide)⟩

/-- C10 (counterexample): a task that establishes a connection finishes with the connection
open.  The transport `target` starts without a connection; after `sendcommand`, and after
`sendfile`, it holds connection 7 with `Close` not applied. -/
theorem task_leaves_connection_open :
    target.client = none
    ∧ (sendcommand quiet (str "ls") target).c.client = some { conn := 7, closed := false }
    ∧ (sendfile withFile (str "/src/main.go") (str "/tmp") target).c.client
        = some { conn := 7, closed := false } := by
  refine ⟨rfl, by decide, by decide⟩

/-- C10 (amended): no exit path of a host's task applies `Close`.  When `sendcommand` or
`sendfile` finishes, the client of the transport is the one the task was given, untouched,
or one dialed during the task and still open.  `Close` on a transport that never dialed
changes nothing, and `Close` on a transport with a client closes that client. -/
theorem task_never_closes (w : World) (cmd sfile dpath : GoString) (c : sshInfof) :
    (∀ cl, (sendcommand w cmd c).c.client = some cl →
        c.client = some cl ∨ (c.client = none ∧ cl.closed = false))
    ∧ (∀ cl, (sendfile w sfile dpath c).c.client = some cl →
        c.client = some cl ∨ (c.client = none ∧ cl.closed = false))
    ∧ (c.client = none → c.Close = c)
    ∧ (∀ cl, c.client = some cl → c.Close.client = some { cl with closed := true }) := by
  refine ⟨?_, ?_, ?_, ?_⟩
  · intro cl h
    apply SendCommand_client w c cmd cl
    unfold sendcommand at h
    rcases hr : c.SendCommand w cmd with ⟨c1, buf, err⟩
    rw [hr] at h
    cases err with
    | none => simpa using h
    | some e =>
      by_cases hb : e.isOpError = true <;> simpa [hb] using h
  · intro cl h
    apply SendFile_client w c sfile dpath cl
    unfold sendfile at h
    rcases hr : c.SendFile w sfile dpath with ⟨c1, err, wr⟩
    rw [hr] at h
    simpa using h
  · intro h
    simp [sshInfof.Close, h]
  · intro cl h
    simp [sshInfof.Close, h]

/-- C10 (witness): after `sendcommand` in the world `quiet` the dialed client is open, and
`Close` leaves the undialed `target` as it is. -/
theorem task_never_closes_witness :
    (target.client = some { conn := 7, closed := false }
        ∨ (target.client = none ∧ ({ conn := 7, closed := false } : Client).closed = false))
    ∧ target.Close = target :=
  ⟨(task_never_closes quiet (str "ls") (str "main.go") (str "/tmp") target).1
      { conn := 7, closed := false } (by decide),
   (task_never_closes quiet (str "ls") (str "main.go") (str "/tmp") target).2.2.1 rfl⟩

/-! ## Reading the list-file -/

theorem Lines_loop_newline (h t cur : GoString) (hn : ∀ b ∈ h, b ≠ 10) :
    Lines.loop (h ++ 10 :: t) cur = dropCR (cur ++ h) :: Lines.loop t [] := by
  induction h generalizing cur with
  | nil => simp [Lines.loop]
  | cons b h ih =>
    have hb : b ≠ 10 := hn b (List.mem_cons_self _ _)
    have := ih (cur ++ [b]) (fun x hx => hn x (List.mem_cons_of_mem _ hx))
    simp [Lines.loop, hb, this]

theorem Lines_loop_last (h cur : GoString) (hn : ∀ b ∈ h, b ≠ 10) :
    Lines.loop h cur = if cur ++ h = [] then [] else [cur ++ h] := by
  induction h generalizing cur with
  | nil => simp [Lines.loop]
  | cons b h ih =>
    have hb : b ≠ 10 := hn b (List.mem_cons_self _ _)
    have := ih (cur ++ [b]) (fun x hx => hn x (List.mem_cons_of_mem _ hx))
    simp [Lines.loop, hb, this]

/-- A text is empty, or starts with a line ended by a newline, or is one line without. -/
theorem text_cases (rest : List UInt8) :
    rest = [] ∨ (∃ h t, rest = h ++ 10 :: t ∧ ∀ b ∈ h, b ≠ 10)
      ∨ (rest ≠ [] ∧ ∀ b ∈ rest, b ≠ 10) := by
  induction rest with
  | nil => exact Or.inl rfl
  | cons b s ih =>
    right
    by_cases hb : b = 10
    · exact Or.inl ⟨[], s, by simp [hb], by simp⟩
    · rcases ih with h | ⟨h, t, hs, hn⟩ | ⟨-, hn⟩
      · subst h
        exact Or.inr ⟨by simp, by simpa using hb⟩
      · refine Or.inl ⟨b :: h, t, by simp [hs], ?_⟩
        intro x hx
        rcases List.mem_cons.mp hx with hx | hx
        · exact hx ▸ hb
        · exact hn x hx
      · refine Or.inr ⟨by simp, ?_⟩
        intro x hx
        rcases List.mem_cons.mp hx with hx | hx
        · exact hx ▸ hb
        · exact hn x hx

theorem takeWhile_all (h : GoString) (hn : ∀ b ∈ h, b ≠ 10) :
    h.takeWhile (fun c => c != 10) = h := by
  rw [List.takeWhile_eq_self_iff]
  intro x hx
  simpa using hn x hx

theorem ReadLine_newline (h t : GoString) (f : Option GoError) (hn : ∀ b ∈ h, b ≠ 10)
    (hl : h.length < defaultBufSize) :
    ReadLine { rest := h ++ 10 :: t, failure := f }
      = ((dropCR h, false, none), { rest := t, failure := f }) := by
  obtain ⟨k, hk⟩ : ∃ k, defaultBufSize - h.length = k + 1 := ⟨defaultBufSize - h.length - 1, by omega⟩
  have hbuf : (h ++ 10 :: t).take defaultBufSize = h ++ 10 :: t.take k := by
    rw [List.take_append_eq_append_take, List.take_of_length_le (Nat.le_of_lt hl), hk,
      List.take_succ_cons]
  have hhead : (h ++ 10 :: t.take k).takeWhile (fun c => c != 10) = h := by
    rw [List.takeWhile_append_of_pos (fun x hx => by simpa using hn x hx)]
    simp
  unfold ReadLine
  simp only [hbuf, hhead]
  have hlt : h.length < (h ++ 10 :: t.take k).length := by simp
  rw [if_pos hlt]
  simp [dropCR]

theorem ReadLine_last (h : GoString) (f : Option GoError) (hne : h ≠ [])
    (hn : ∀ b ∈ h, b ≠ 10) (hl : h.length < defaultBufSize) :
    ReadLine { rest := h, failure := f } = ((h, false, none), { rest := [], failure := f }) := by
  have hbuf : h.take defaultBufSize = h := List.take_of_length_le (Nat.le_of_lt hl)
  unfold ReadLine
  simp only [hbuf, takeWhile_all h hn]
  rw [if_neg (Nat.lt_irrefl _), if_neg (by omega), if_neg hne]

theorem ReadLine_fragment (rest : GoString) (f : Option GoError)
    (hlen : defaultBufSize ≤ rest.length)
    (hn : ∀ b ∈ rest.take defaultBufSize, b ≠ 10)
    (hcr : (rest.take defaultBufSize).getLast? ≠ some 13) :
    ReadLine { rest := rest, failure := f }
      = ((rest.take defaultBufSize, true, none),
         { rest := rest.drop defaultBufSize, failure := f }) := by
  have hbl : (rest.take defaultBufSize).length = defaultBufSize := by
    rw [List.length_take]; omega
  unfold ReadLine
  simp only [takeWhile_all _ hn]
  rw [if_neg (Nat.lt_irrefl _), if_pos (by omega), if_neg hcr]

theorem ReadLine_end (f : Option GoError) :
    ReadLine { rest := [], failure := f }
      = (([], false, some (match f with | none => ReadErr.EOF | some e => ReadErr.failed e)),
         { rest := [], failure := f }) := by
  cases f <;> rfl

theorem dropCR_length (h : GoString) : h.length ≤ (dropCR h).length + 1 := by
  unfold dropCR
  split
  · simp; omega
  · omega

theorem FileLine_loop_short (count : Int) :
    ∀ (fuel : Nat) (rest : List UInt8) (list : List (List GoString)) (printed : List GoString),
      rest.length < fuel → (∀ l ∈ Lines rest, l.length + 1 < defaultBufSize) →
      ∃ pr, FileLine.loop count fuel { rest := rest, failure := none } list printed
        = some { list := list ++ rowsWith rest count, err := none, printed := pr } := by
  intro fuel
  induction fuel with
  | zero => intro rest list printed h; omega
  | succ fuel ih =>
    intro rest list printed hfuel hshort
    rcases text_cases rest with h0 | ⟨h, t, hrest, hn⟩ | ⟨hne, hn⟩
    · subst h0
      refine ⟨printed, ?_⟩
      unfold FileLine.loop
      rw [ReadLine_end]
      simp [rowsWith, Lines, Lines.loop]
    · subst hrest
      have hlines : Lines (h ++ 10 :: t) = dropCR h :: Lines t := by
        unfold Lines
        rw [Lines_loop_newline h t [] hn]
        simp
      have hl : h.length < defaultBufSize := by
        have h1 := hshort (dropCR h) (by rw [hlines]; exact List.mem_cons_self _ _)
        have h2 := dropCR_length h
        omega
      have hshort1 : ∀ l ∈ Lines t, l.length + 1 < defaultBufSize := fun l hl1 =>
        hshort l (by rw [hlines]; exact List.mem_cons_of_mem _ hl1)
      have hfuel1 : t.length < fuel := by
        simp at hfuel; omega
      unfold FileLine.loop
      rw [ReadLine_newline h t none hn hl]
      simp only
      by_cases hc : ((Fields (dropCR h)).length : Int) = count
      · obtain ⟨pr, hpr⟩ := ih t (list ++ [Fields (dropCR h)]) printed hfuel1 hshort1
        refine ⟨pr, ?_⟩
        rw [if_pos hc, hpr]
        simp [rowsWith, hlines, hc]
      · obtain ⟨pr, hpr⟩ := ih t list
          (printed ++ [str "无效的数据:" ++ dropCR h ++ str "\n"]) hfuel1 hshort1
        refine ⟨pr, ?_⟩
        rw [if_neg hc, hpr]
        simp [rowsWith, hlines, hc]
    · have hlines : Lines rest = [rest] := by
        unfold Lines
        rw [Lines_loop_last rest [] hn]
        simp [hne]
      have hl : rest.length < defaultBufSize := by
        have h1 := hshort rest (by rw [hlines]; exact List.mem_singleton.mpr rfl)
        omega
      have hpos : 0 < rest.length := List.length_pos.mpr hne
      have hfuel1 : ([] : List UInt8).length < fuel := by
        simp; omega
      have hshort1 : ∀ l ∈ Lines [], l.length + 1 < defaultBufSize := by
        simp [Lines, Lines.loop]
      have hr0 : rowsWith [] count = [] := by simp [rowsWith, Lines, Lines.loop]
      unfold FileLine.loop
      rw [ReadLine_last rest none hne hn hl]
      simp only
      by_cases hc : ((Fields rest).length : Int) = count
      · obtain ⟨pr, hpr⟩ := ih [] (list ++ [Fields rest]) printed hfuel1 hshort1
        refine ⟨pr, ?_⟩
        rw [if_pos hc, hpr, hr0]
        simp [rowsWith, hlines, hc]
      · obtain ⟨pr, hpr⟩ := ih [] list
          (printed ++ [str "无效的数据:" ++ rest ++ str "\n"]) hfuel1 hshort1
        refine ⟨pr, ?_⟩
        rw [if_neg hc, hpr, hr0]
        simp [rowsWith, hlines, hc]

/-- For a readable list-file all of whose lines, with the carriage return of the line end,
are shorter than the buffer of the reader, `FileLine` returns without error exactly the
rows of the lines that have `count` fields, in file order. -/
theorem FileLine_short_lines (w : World) (path : GoString) (count : Int) (File : FileData)
    (hopen : w.openFile path = .ok File) (hread : File.failure = none)
    (hshort : ∀ l ∈ Lines File.content, l.length + 1 < defaultBufSize) :
    (FileLine w path count).err = none
      ∧ (FileLine w path count).list = rowsWith File.content count := by
  obtain ⟨pr, hpr⟩ := FileLine_loop_short count (File.content.length + 1) File.content [] []
    (Nat.lt_succ_self _) hshort
  unfold FileLine FileLine.run
  rw [hopen]
  simp only [hread, hpr]
  simp

theorem ReadLine_consumes (b b1 : Reader) (line : GoString) (more : Bool)
    (h : ReadLine b = ((line, more, none), b1)) :
    b1.rest.length < b.rest.length ∧ b1.failure = b.failure := by
  unfold ReadLine at h
  simp only at h
  have hbuf : (b.rest.take defaultBufSize).length ≤ b.rest.length := by
    rw [List.length_take]
    exact Nat.min_le_right _ _
  have hpos : 1 < defaultBufSize := by decide
  split at h
  · rename_i hlt
    simp only [Prod.mk.injEq] at h
    rw [← h.2]
    refine ⟨?_, rfl⟩
    simp only [List.length_drop]
    omega
  · split at h
    · rename_i hfull
      split at h
      · simp only [Prod.mk.injEq] at h
        rw [← h.2]
        refine ⟨?_, rfl⟩
        simp only [List.length_drop]
        omega
      · simp only [Prod.mk.injEq] at h
        rw [← h.2]
        refine ⟨?_, rfl⟩
        simp only [List.length_drop]
        omega
    · split at h
      · split at h <;> simp at h
      · rename_i hne
        simp only [Prod.mk.injEq] at h
        rw [← h.2]
        exact ⟨List.length_pos.mpr hne, rfl⟩

/-- The loop of `FileLine` ends within one call of `ReadLine` more than bytes are left. -/
theorem FileLine_loop_returns (count : Int) :
    ∀ (fuel : Nat) (b : Reader) (list : List (List GoString)) (printed : List GoString),
      b.rest.length < fuel → (FileLine.loop count fuel b list printed).isSome = true := by
  intro fuel
  induction fuel with
  | zero => intro b list printed h; omega
  | succ fuel ih =>
    intro b list printed hfuel
    unfold FileLine.loop
    rcases hr : ReadLine b with ⟨⟨line, more, err⟩, b1⟩
    cases err with
    | some e => cases e <;> rfl
    | none =>
      have hlt := (ReadLine_consumes b b1 line more hr).1
      simp only
      split
      · exact ih _ _ _ (by omega)
      · exact ih _ _ _ (by omega)

/-- Function `FileLine` returns on every world, path and count. -/
theorem FileLine_run_returns (w : World) (path : GoString) (count : Int) :
    FileLine.run w path count = some (FileLine w path count) := by
  have h : (FileLine.run w path count).isSome = true := by
    unfold FileLine.run
    split
    · rfl
    · exact FileLine_loop_returns count _ _ _ _ (Nat.lt_succ_self _)
  unfold FileLine
  obtain ⟨r, hr⟩ := Option.isSome_iff_exists.mp h
  rw [hr]
  rfl

theorem Fields_loop_plain (l : GoString) :
    ∀ (space : Bool) (cur : Option GoString), l ≠ [] →
      (∀ b ∈ l, b.toNat < 0x80 ∧ IsSpace b.toNat = false) →
      Fields.loop l 0 space cur = [cur.getD [] ++ l] := by
  induction l with
  | nil => intro _ _ h; exact absurd rfl h
  | cons b s ih =>
    intro space cur _ hp
    obtain ⟨hb1, hb2⟩ := hp b (List.mem_cons_self _ _)
    have hd : decodeRune (b :: s) = (b.toNat, 1) := by
      unfold decodeRune
      simp [hb1]
    unfold Fields.loop
    simp only [hd, hb2]
    by_cases hs : s = []
    · subst hs
      simp [Fields.loop]
    · rw [ih false _ hs (fun x hx => hp x (List.mem_cons_of_mem _ hx))]
      simp

theorem Fields_letters (n : Nat) (hn : 0 < n) :
    Fields (List.replicate n 97) = [List.replicate n 97] := by
  unfold Fields
  rw [Fields_loop_plain _ false none]
  · simp
  · intro h
    have := congrArg List.length h
    simp at this
    omega
  · intro b hb
    rw [List.eq_of_mem_replicate hb]
    decide

theorem Lines_letters (n : Nat) (hn : 0 < n) :
    Lines (List.replicate n 97) = [List.replicate n 97] := by
  unfold Lines
  rw [Lines_loop_last _ [] (fun b hb => by rw [List.eq_of_mem_replicate hb]; decide)]
  have : List.replicate n (97 : UInt8) ≠ [] := by
    intro h
    have := congrArg List.length h
    simp at this
    omega
  simp [this]

theorem FileLine_loop_long (fuel : Nat) :
    FileLine.loop 1 (fuel + 3)
        { rest := List.replicate (defaultBufSize + 1) 97, failure := none } [] []
      = some { list := [[List.replicate defaultBufSize 97], [[97]]], err := none,
               printed := [] } := by
  have hpos : 0 < defaultBufSize := by decide
  have htake : (List.replicate (defaultBufSize + 1) (97 : UInt8)).take defaultBufSize
      = List.replicate defaultBufSize 97 := by
    rw [List.take_replicate, Nat.min_eq_left (Nat.le_succ _)]
  have hdrop : (List.replicate (defaultBufSize + 1) (97 : UInt8)).drop defaultBufSize
      = [97] := by
    rw [List.drop_replicate, Nat.add_sub_cancel_left]
    rfl
  have h1 : ReadLine { rest := List.replicate (defaultBufSize + 1) 97, failure := none }
      = ((List.replicate defaultBufSize 97, true, none), { rest := [97], failure := none }) := by
    rw [ReadLine_fragment _ none (by simp) ?_ ?_, htake, hdrop]
    · intro b hb
      rw [htake] at hb
      rw [List.eq_of_mem_replicate hb]
      decide
    · rw [htake, List.getLast?_replicate]
      split <;> simp
  have h2 : ReadLine { rest := [97], failure := none }
      = (([97], false, none), { rest := [], failure := none }) :=
    ReadLine_last [97] none (by simp) (by decide) (by decide)
  have hf1 : Fields (List.replicate defaultBufSize 97) = [List.replicate defaultBufSize 97] :=
    Fields_letters _ hpos
  have hf2 : Fields [97] = [[97]] := Fields_letters 1 (by decide)
  rw [FileLine.loop, h1]
  simp only [hf1, List.length_singleton, Nat.cast_one, if_true]
  rw [FileLine.loop, h2]
  simp only [hf2, List.length_singleton, Nat.cast_one, if_true]
  rw [FileLine.loop, ReadLine_end]
  rfl

/-- C4 (the code departs from the claim): a line that does not fit the 4096-byte buffer of
the reader is returned by `ReadLine` in fragments, and `FileLine`, which drops the flag that
says so, takes every fragment for a line.  The file `longLine` is one line of 4097 letters
`a`, that is one row of one field; `FileLine(path, 1)` returns without error two rows, the
first 4096 letters and the last letter. -/
theorem FileLine_splits_long_line :
    (FileLine longWorld (str "iplist") 1).err = none
    ∧ (FileLine longWorld (str "iplist") 1).list = [[List.replicate 4096 97], [[97]]]
    ∧ Lines longLine.content = [List.replicate 4097 97]
    ∧ rowsWith longLine.content 1 = [[List.replicate 4097 97]] := by
  have hrun : FileLine.run longWorld (str "iplist") 1
      = some { list := [[List.replicate defaultBufSize 97], [[97]]], err := none,
               printed := [] } := by
    show FileLine.loop 1 ((List.replicate (defaultBufSize + 1) (97 : UInt8)).length + 1)
      { rest := List.replicate (defaultBufSize + 1) 97, failure := none } [] [] = _
    rw [List.length_replicate]
    have h := FileLine_loop_long (defaultBufSize - 1)
    have e : defaultBufSize - 1 + 3 = defaultBufSize + 1 + 1 := by decide
    rw [e] at h
    exact h
  have hres := FileLine_run_returns longWorld (str "iplist") 1
  rw [hrun] at hres
  have hres1 := (Option.some.inj hres).symm
  have hl : Lines longLine.content = [List.replicate 4097 97] :=
    Lines_letters 4097 (by decide)
  have e : defaultBufSize = 4096 := rfl
  rw [e] at hres1
  refine ⟨by rw [hres1], by rw [hres1], hl, ?_⟩
  unfold rowsWith
  rw [hl]
  simp only [List.map_cons, List.map_nil, Fields_letters 4097 (by decide)]
  rfl

/-- The example of the specification: of the lines `10.0.0.1 root pw1`, `badrow` and
`10.0.0.2 root pw2`, `FileLine(path, 3)` returns the first and the third as rows, without
error, and prints the second as invalid. -/
theorem FileLine_sample :
    FileLine sample (str "iplist") 3
      = { list := [[str "10.0.0.1", str "root", str "pw1"],
                   [str "10.0.0.2", str "root", str "pw2"]],
          err := none,
          printed := [str "无效的数据:badrow\n"] } := by
  decide!

/-! ## The command `ssh` -/

theorem hostLoop_ret (w : World) (hs : List GoString) (r : RunResult) :
    (ssh_run.hostLoop w hs r).ret = r.ret := by
  induction hs generalizing r with
  | nil => rfl
  | cons h hs ih =>
    unfold ssh_run.hostLoop
    cases hn : newsshInfo w (some r.cfg) h with
    | error e => rfl
    | ok c => simp only [ih]

theorem rowLoop_ret (w : World) (rows : List (List GoString)) (r : RunResult) :
    (ssh_run.rowLoop w rows r).ret = r.ret := by
  induction rows generalizing r with
  | nil => rfl
  | cons info rows ih =>
    unfold ssh_run.rowLoop
    simp only
    split
    · rfl
    · simp only [ih]

theorem hostLoop_tasks (w : World) (cfg : ssh_config) (hs : List GoString) (r : RunResult)
    (hcfg : r.cfg = cfg) :
    ∀ t ∈ (ssh_run.hostLoop w hs r).tasks, t ∈ r.tasks ∨ ∃ c, t = ssh_run.launch cfg c := by
  induction hs generalizing r with
  | nil => intro t ht; exact Or.inl ht
  | cons h hs ih =>
    unfold ssh_run.hostLoop
    cases hn : newsshInfo w (some r.cfg) h with
    | error e => intro t ht; exact Or.inl ht
    | ok c =>
      intro t ht
      dsimp only at ht
      rcases ih _ (by exact hcfg) t ht with h1 | h1
      · simp only [List.mem_append, List.mem_singleton] at h1
        rcases h1 with h1 | h1
        · exact Or.inl h1
        · exact Or.inr ⟨c, by rw [h1, hcfg]⟩
      · exact Or.inr h1

theorem launch_congr (a b : ssh_config) (h : sameOperation a b) (c : sshInfof) :
    ssh_run.launch a c = ssh_run.launch b c := by
  rcases h with ⟨h1, h2, h3⟩
  simp [ssh_run.launch, h1, h2, h3]

theorem rowLoop_tasks (w : World) (cfg : ssh_config) (rows : List (List GoString))
    (r : RunResult) (hcfg : sameOperation r.cfg cfg) :
    ∀ t ∈ (ssh_run.rowLoop w rows r).tasks, t ∈ r.tasks ∨ ∃ c, t = ssh_run.launch cfg c := by
  induction rows generalizing r with
  | nil => intro t ht; exact Or.inl ht
  | cons info rows ih =>
    unfold ssh_run.rowLoop
    simp only
    split
    · intro t ht; exact Or.inl ht
    · rename_i c hn
      intro t ht
      have hc1 : sameOperation
          ({ r.cfg with user := info.getD 1 [], passwd := info.getD 2 [] } : ssh_config) cfg :=
        hcfg
      rcases ih _ (by exact hc1) t ht with h1 | h1
      · simp only [List.mem_append, List.mem_singleton] at h1
        rcases h1 with h1 | h1
        · exact Or.inl h1
        · exact Or.inr ⟨c, by rw [h1]; exact launch_congr _ _ hc1 c⟩
      · exact Or.inr h1

theorem Split_ne_nil (sep : UInt8) (s : GoString) : Split sep s ≠ [] := by
  cases s with
  | nil => simp [Split]
  | cons b s =>
    unfold Split
    split
    · simp
    · split <;> simp

/-- Every task of the run is the one `launch` builds from the flags of the operation. -/
theorem ssh_run_tasks (w : World) (cfg : ssh_config) :
    ∀ t ∈ (ssh_run w cfg).tasks, ∃ c, t = ssh_run.launch cfg c := by
  intro t ht
  unfold ssh_run at ht
  simp only at ht
  split at ht
  · simp at ht
  · split at ht
    · simp at ht
    · split at ht
      · simp at ht
      · split at ht
        · simp at ht
        · split at ht
          · simp at ht
          · split at ht
            · split at ht
              · simp at ht
              · rcases hostLoop_tasks w cfg _ _ rfl t ht with h | h
                · simp at h
                · exact h
            · rcases rowLoop_tasks w cfg _ _ ⟨rfl, rfl, rfl⟩ t ht with h | h
              · simp at h
              · exact h

/-- What `ssh_run` does once the host list is resolved and non-empty and the sink is open. -/
theorem ssh_run_ready (w : World) (cfg : ssh_config)
    (hsrc : ¬ (cfg.hosts = [] ∧ cfg.config = []))
    (herr : (ssh_run.resolve w cfg).err = none)
    (hne : ¬ (((ssh_run.resolve w cfg).host.getD []).length ≤ 0
              ∧ (ssh_run.resolve w cfg).hosts.length ≤ 0))
    (hout : cfg.out = [] ∨ w.createFile cfg.out = none) :
    ssh_run w cfg =
      (let r1 : RunResult :=
        { ret := none, stdout := (ssh_run.resolve w cfg).printed, calls := [], tasks := [],
          cfg := cfg }
      if cfg.cmd = [] ∧ (cfg.sfile = [] ∨ cfg.dpath = []) then
        { r1 with ret := some (Errorf (str "参数错误\n")) }
      else
        match (ssh_run.resolve w cfg).host with
        | some host =>
          if cfg.user = [] ∨ cfg.passwd = [] ∧ cfg.privatekey = [] then
            { r1 with ret := some (Errorf (str "必须指定用户名,密码或私钥")) }
          else ssh_run.hostLoop w host r1
        | none => ssh_run.rowLoop w (ssh_run.resolve w cfg).hosts r1) := by
  have hcreated : (if cfg.out ≠ [] then w.createFile cfg.out else none) = none := by
    rcases hout with h | h
    · simp [h]
    · simp [h]
  unfold ssh_run
  simp only [if_neg hsrc, herr, if_neg hne, hcreated]

/-- With neither operation selected `ssh_run` calls `newsshInfo` for no host and launches no
task, on every world and configuration. -/
theorem ssh_run_no_operation (w : World) (cfg : ssh_config)
    (hop : cfg.cmd = [] ∧ (cfg.sfile = [] ∨ cfg.dpath = [])) :
    (ssh_run w cfg).tasks = [] ∧ (ssh_run w cfg).calls = [] := by
  unfold ssh_run
  simp only [if_pos hop]
  split
  · exact ⟨rfl, rfl⟩
  · split
    · exact ⟨rfl, rfl⟩
    · split
      · exact ⟨rfl, rfl⟩
      · split
        · exact ⟨rfl, rfl⟩
        · exact ⟨rfl, rfl⟩

/-- A run with a host source that does not reach the operation check has printed why and
returns nil, with no call of `newsshInfo` and no task. -/
theorem ssh_run_not_reached (w : World) (cfg : ssh_config)
    (hsrc : ¬ (cfg.hosts = [] ∧ cfg.config = []))
    (h : ssh_run.reachesCheck w cfg = false) :
    (ssh_run w cfg).ret = none ∧ (ssh_run w cfg).tasks = [] ∧ (ssh_run w cfg).calls = [] := by
  unfold ssh_run.reachesCheck at h
  simp only [decide_eq_false_iff_not] at h
  unfold ssh_run
  simp only [if_neg hsrc]
  split
  · exact ⟨rfl, rfl, rfl⟩
  · rename_i herr
    split
    · exact ⟨rfl, rfl, rfl⟩
    · rename_i hne
      split
      · exact ⟨rfl, rfl, rfl⟩
      · rename_i hcr
        exfalso
        apply h
        refine ⟨hsrc, herr, hne, ?_⟩
        by_cases ho : cfg.out = []
        · exact Or.inl ho
        · right
          simpa [ho] using hcr

/-- C5 (amended): `ssh_run` returns the configuration error of the operation check exactly
when the run reaches that check (a host source is given, the host list is read without
error and is not empty, the result file is created) and neither operation is selected
(`cmd` is empty and `sfile` or `dpath` is empty).  A run with a host source that does not
reach the check has printed the failure and returns nil, whether or not an operation is
selected, with no call of `newsshInfo` and no task.  With neither operation selected there
is no call of `newsshInfo` and no task in any configuration.  When `cmd` is not empty every
launched task is a command task, also when `sfile` and `dpath` are supplied; when `cmd` is
empty every launched task is a file push. -/
theorem ssh_run_operation_check (w : World) (cfg : ssh_config) :
    (cfg.cmd = [] ∧ (cfg.sfile = [] ∨ cfg.dpath = []) →
        (ssh_run w cfg).tasks = [] ∧ (ssh_run w cfg).calls = [])
    ∧ ((ssh_run w cfg).ret = some (Errorf (str "参数错误\n"))
        ↔ ssh_run.reachesCheck w cfg = true
            ∧ cfg.cmd = [] ∧ (cfg.sfile = [] ∨ cfg.dpath = []))
    ∧ (¬ (cfg.hosts = [] ∧ cfg.config = []) → ssh_run.reachesCheck w cfg = false →
        (ssh_run w cfg).ret = none ∧ (ssh_run w cfg).tasks = [] ∧ (ssh_run w cfg).calls = [])
    ∧ (cfg.cmd ≠ [] → ∀ t ∈ (ssh_run w cfg).tasks, ∃ c, t = Task.command cfg.cmd c)
    ∧ (cfg.cmd = [] → ∀ t ∈ (ssh_run w cfg).tasks, ∃ c, t = Task.file cfg.sfile cfg.dpath c) := by
  have hmsg : Errorf (str "必须指定用户名,密码或私钥") ≠ Errorf (str "参数错误\n") := by decide
  have hmsg0 : Errorf (str "参数错误,必须指定主机地址或主机配置文件") ≠ Errorf (str "参数错误\n") := by
    decide
  refine ⟨ssh_run_no_operation w cfg, ?_, ssh_run_not_reached w cfg, ?_, ?_⟩
  · constructor
    · intro h
      by_cases hsrc : cfg.hosts = [] ∧ cfg.config = []
      · exfalso
        unfold ssh_run at h
        simp only [if_pos hsrc] at h
        exact hmsg0 (Option.some.inj h)
      · cases hr : ssh_run.reachesCheck w cfg with
        | false =>
          rw [(ssh_run_not_reached w cfg hsrc hr).1] at h
          simp at h
        | true =>
          refine ⟨rfl, ?_⟩
          unfold ssh_run.reachesCheck at hr
          simp only [decide_eq_true_eq] at hr
          obtain ⟨-, herr, hne, hout⟩ := hr
          by_contra hop
          rw [ssh_run_ready w cfg hsrc herr hne hout] at h
          simp only [if_neg hop] at h
          split at h
          · split at h
            · exact hmsg (Option.some.inj h)
            · rw [hostLoop_ret] at h; simp at h
          · rw [rowLoop_ret] at h; simp at h
    · rintro ⟨hr, hop⟩
      unfold ssh_run.reachesCheck at hr
      simp only [decide_eq_true_eq] at hr
      obtain ⟨hsrc, herr, hne, hout⟩ := hr
      rw [ssh_run_ready w cfg hsrc herr hne hout]
      simp only [if_pos hop]
  · intro hc t ht
    rcases ssh_run_tasks w cfg t ht with ⟨c, rfl⟩
    exact ⟨c, by simp [ssh_run.launch, hc]⟩
  · intro hc t ht
    rcases ssh_run_tasks w cfg t ht with ⟨c, rfl⟩
    exact ⟨c, by simp [ssh_run.launch, hc]⟩

/-- C5 (witness): the flags `-u root -p pw1 -H 10.0.0.1:22` without an operation reach the
check and get its error; the flags `-C iplist` without an operation, where `iplist` cannot
be read, do not reach it and return nil; with `-c ls -s main.go -d /tmp` the task is the
command. -/
theorem ssh_run_operation_check_witness :
    (ssh_run quiet { byFlags with cmd := [] }).ret = some (Errorf (str "参数错误\n"))
    ∧ ((ssh_run quiet { byList with cmd := [] }).ret = none
        ∧ (ssh_run quiet { byList with cmd := [] }).tasks = []
        ∧ (ssh_run quiet { byList with cmd := [] }).calls = [])
    ∧ (∀ t ∈ (ssh_run quiet { byFlags with sfile := str "main.go", dpath := str "/tmp" }).tasks,
        ∃ c, t = Task.command (str "ls") c) :=
  ⟨(ssh_run_operation_check quiet { byFlags with cmd := [] }).2.1.mpr
      ⟨by decide, by decide, by decide⟩,
   (ssh_run_operation_check quiet { byList with cmd := [] }).2.2.1 (by decide) (by decide),
   (ssh_run_operation_check quiet
      { byFlags with sfile := str "main.go", dpath := str "/tmp" }).2.2.2.1 (by decide)⟩

/-- C8: for hosts given by the flag `-H`, with the sink open and an operation selected,
`ssh_run` returns the missing-credentials error, having called `newsshInfo` for no host and
launched no task, if and only if the user is empty or both the password and the private-key
path are empty. -/
theorem ssh_run_missing_credentials (w : World) (cfg : ssh_config)
    (hH : cfg.hosts ≠ []) (hf : cfg.hostfile = false)
    (hout : cfg.out = [] ∨ w.createFile cfg.out = none)
    (hop : ¬ (cfg.cmd = [] ∧ (cfg.sfile = [] ∨ cfg.dpath = []))) :
    ((ssh_run w cfg).ret = some (Errorf (str "必须指定用户名,密码或私钥"))
        ∧ (ssh_run w cfg).tasks = [] ∧ (ssh_run w cfg).calls = [])
      ↔ (cfg.user = [] ∨ (cfg.passwd = [] ∧ cfg.privatekey = [])) := by
  have hres : ssh_run.resolve w cfg
      = { host := some (Split 44 cfg.hosts), hosts := [], err := none, printed := [] } := by
    simp [ssh_run.resolve, hH, hf]
  have hlen : 0 < (Split 44 cfg.hosts).length :=
    List.length_pos.mpr (Split_ne_nil 44 cfg.hosts)
  have hrun := ssh_run_ready w cfg (fun h => hH h.1) (by rw [hres])
    (by rw [hres]; simp only [Option.getD_some]; omega) hout
  rw [hrun, hres]
  simp only [if_neg hop]
  constructor
  · intro h
    by_contra hc
    simp only [if_neg hc] at h
    rw [hostLoop_ret] at h
    simp at h
  · intro hc
    simp only [if_pos hc, and_self]

/-- C8 (witness): the flags `-c ls -u root -H 10.0.0.1:22`, without password or key. -/
theorem ssh_run_missing_credentials_witness :
    ((ssh_run quiet { byFlags with passwd := [] }).ret
          = some (Errorf (str "必须指定用户名,密码或私钥"))
        ∧ (ssh_run quiet { byFlags with passwd := [] }).tasks = []
        ∧ (ssh_run quiet { byFlags with passwd := [] }).calls = [])
      ↔ (byFlags.user = [] ∨ (([] : GoString) = [] ∧ byFlags.privatekey = [])) :=
  ssh_run_missing_credentials quiet { byFlags with passwd := [] } (by decide) (by decide) (by decide) (by decide)

theorem newsshInfo_keyFails (w : World) (info : ssh_config) (host : GoString)
    (hk : info.privatekey ≠ []) (hbad : keyFails w info.privatekey = true) :
    ∃ e, newsshInfo w (some info) host = .error e ∧ e.isOpError = false
      ∧ isKeyErrorText e.msg := by
  unfold keyFails at hbad
  unfold newsshInfo
  cases hr : ReadFile w info.privatekey with
  | error e =>
    exact ⟨Errorf (str "Read private key error:" ++ e.msg), by simp [hk, hr], rfl,
      e.msg, Or.inl rfl⟩
  | ok buf =>
    rw [hr] at hbad
    cases hp : w.parsePrivateKey buf with
    | error e =>
      exact ⟨Errorf (str "Parse private key error:" ++ e.msg), by simp [hk, hr, hp], rfl,
        e.msg, Or.inr rfl⟩
    | ok sig => simp [hp] at hbad

theorem hostLoop_keyFails (w : World) (hs : List GoString) (r : RunResult)
    (hk : r.cfg.privatekey ≠ []) (hbad : keyFails w r.cfg.privatekey = true) :
    stoppedOnKey r (ssh_run.hostLoop w hs r) := by
  cases hs with
  | nil => exact ⟨rfl, rfl, Or.inl rfl⟩
  | cons h hs =>
    obtain ⟨e, he, -, hm⟩ := newsshInfo_keyFails w r.cfg h hk hbad
    unfold ssh_run.hostLoop
    rw [he]
    exact ⟨rfl, rfl, Or.inr ⟨h, e.msg, rfl, hm, rfl⟩⟩

theorem rowLoop_keyFails (w : World) (rows : List (List GoString)) (r : RunResult)
    (hk : r.cfg.privatekey ≠ []) (hbad : keyFails w r.cfg.privatekey = true) :
    stoppedOnKey r (ssh_run.rowLoop w rows r) := by
  cases rows with
  | nil => exact ⟨rfl, rfl, Or.inl rfl⟩
  | cons info rows =>
    obtain ⟨e, he, -, hm⟩ := newsshInfo_keyFails w
      { r.cfg with user := info.getD 1 [], passwd := info.getD 2 [] } (info.getD 0 []) hk hbad
    unfold ssh_run.rowLoop
    simp only
    rw [he]
    exact ⟨rfl, rfl, Or.inr ⟨info.getD 0 [], e.msg, rfl, hm, rfl⟩⟩

/-- C9: when the private-key path is not empty and the file cannot be read or does not
parse, `newsshInfo` returns for every host an error, which is one of its two key errors and
not a `*net.OpError`, and no transport.  `ssh_run` launches no task, so nothing is dialed;
it calls `newsshInfo` for at most one host, and if it does the last line it prints is the
key error. -/
theorem ssh_run_key_failure (w : World) (cfg : ssh_config)
    (hk : cfg.privatekey ≠ []) (hbad : keyFails w cfg.privatekey = true) :
    (∀ (info : ssh_config) (host : GoString), info.privatekey = cfg.privatekey →
        ∃ e, newsshInfo w (some info) host = .error e ∧ e.isOpError = false
          ∧ isKeyErrorText e.msg)
    ∧ (ssh_run w cfg).tasks = []
    ∧ ((ssh_run w cfg).calls = [] ∨
        ∃ h msg, (ssh_run w cfg).calls = [h] ∧ isKeyErrorText msg
          ∧ (ssh_run w cfg).stdout.getLast? = some (msg ++ str "\n")) := by
  refine ⟨?_, ?_⟩
  · intro info host hi
    exact newsshInfo_keyFails w info host (hi ▸ hk) (hi ▸ hbad)
  · unfold ssh_run
    simp only
    split
    · exact ⟨rfl, Or.inl rfl⟩
    · split
      · exact ⟨rfl, Or.inl rfl⟩
      · split
        · exact ⟨rfl, Or.inl rfl⟩
        · split
          · exact ⟨rfl, Or.inl rfl⟩
          · split
            · exact ⟨rfl, Or.inl rfl⟩
            · split
              · split
                · exact ⟨rfl, Or.inl rfl⟩
                · rename_i host _ _
                  obtain ⟨-, ht, hc⟩ := hostLoop_keyFails w host
                    { ret := none, stdout := (ssh_run.resolve w cfg).printed, calls := [],
                      tasks := [], cfg := cfg } hk hbad
                  refine ⟨ht, ?_⟩
                  rcases hc with hc | ⟨h, msg, hc, hm, hs⟩
                  · exact Or.inl hc
                  · exact Or.inr ⟨h, msg, by simpa using hc, hm, by rw [hs]; simp⟩
              · obtain ⟨-, ht, hc⟩ := rowLoop_keyFails w (ssh_run.resolve w cfg).hosts
                    { ret := none, stdout := (ssh_run.resolve w cfg).printed, calls := [],
                      tasks := [], cfg := cfg } hk hbad
                refine ⟨ht, ?_⟩
                rcases hc with hc | ⟨h, msg, hc, hm, hs⟩
                · exact Or.inl hc
                · exact Or.inr ⟨h, msg, by simpa using hc, hm, by rw [hs]; simp⟩

/-- C9 (witness): the flags `-c ls -u root -P id_rsa -H 10.0.0.1:22,10.0.0.2:22` where
`id_rsa` is not a private key. -/
theorem ssh_run_key_failure_witness :
    (∀ (info : ssh_config) (host : GoString), info.privatekey = byKey.privatekey →
        ∃ e, newsshInfo badKey (some info) host = .error e ∧ e.isOpError = false
          ∧ isKeyErrorText e.msg)
    ∧ (ssh_run badKey byKey).tasks = []
    ∧ ((ssh_run badKey byKey).calls = [] ∨
        ∃ h msg, (ssh_run badKey byKey).calls = [h] ∧ isKeyErrorText msg
          ∧ (ssh_run badKey byKey).stdout.getLast? = some (msg ++ str "\n")) :=
  ssh_run_key_failure badKey byKey (by decide) (by decide)

theorem rowLoop_same_tasks (w : World) (rows : List (List GoString)) :
    ∀ (r r' : RunResult) (u p : GoString), r'.tasks = r.tasks →
      r'.cfg = { r.cfg with user := u, passwd := p } →
      (ssh_run.rowLoop w rows r').tasks = (ssh_run.rowLoop w rows r).tasks := by
  induction rows with
  | nil => intro r r' u p ht _; exact ht
  | cons info rows ih =>
    intro r r' u p ht hcfg
    unfold ssh_run.rowLoop
    simp only [hcfg, ht]
    split
    · rfl
    · exact ih _ _ (info.getD 1 []) (info.getD 2 []) rfl rfl

/-- With `-C` and neither `-H` nor `-f`, the flags `-u` and `-p` have no effect on the tasks
`ssh_run` launches. -/
theorem ssh_run_list_file_ignores_user_passwd (w : World) (cfg : ssh_config)
    (u p : GoString) (hH : cfg.hosts = []) (hf : cfg.hostfile = false) :
    (ssh_run w { cfg with user := u, passwd := p }).tasks = (ssh_run w cfg).tasks := by
  have hres : ssh_run.resolve w { cfg with user := u, passwd := p }
      = ssh_run.resolve w cfg := rfl
  have hnone : (ssh_run.resolve w cfg).host = none := by
    simp [ssh_run.resolve, hH, hf]
  unfold ssh_run
  simp only [hres, hnone]
  split
  · rfl
  · split
    · rfl
    · split
      · rfl
      · split
        · rfl
        · split
          · rfl
          · exact rowLoop_same_tasks w _ _ _ u p rfl rfl

/-- C5 (counterexample): the claim fails in two ways.  With a command and a file push both
supplied, `ssh_run` returns no error and launches the command.  With neither operation
selected and a host source given, `ssh_run` returns nil, not a configuration error, when the
list-file cannot be read (`-C iplist` where there is no such file) and when the result file
cannot be created (`-H 10.0.0.1:22 -u root -p pw1 -o out.txt`): it prints the failure and
stops before the operation check. -/
theorem ssh_run_command_wins_over_file_push :
    ((ssh_run quiet { byFlags with sfile := str "main.go", dpath := str "/tmp" }).ret = none
      ∧ (ssh_run quiet { byFlags with sfile := str "main.go", dpath := str "/tmp" }).tasks
          = [Task.command (str "ls") target])
    ∧ ((ssh_run quiet { byList with cmd := [] }).ret = none
      ∧ (ssh_run quiet { byList with cmd := [] }).stdout
          = [str "读取主机列表失败,no such file or directory\n"])
    ∧ ((ssh_run noSink { byFlags with cmd := [], out := str "out.txt" }).ret = none
      ∧ (ssh_run noSink { byFlags with cmd := [], out := str "out.txt" }).stdout
          = [str "创建结果文件失败:permission denied\n"]) := by
  refine ⟨⟨by decide, by decide⟩, ⟨by decide, by decide⟩, ⟨by decide, by decide⟩⟩

/-- C6 (the code departs from the claim): with `-C iplist`, the flag `-H` takes effect.
Without `-H` the tasks are the two rows of `iplist`; with `-u admin -p x -H 9.9.9.9:22`
added, the list-file is not read and the one task goes to `9.9.9.9:22` as `admin`. -/
theorem ssh_run_host_flag_overrides_list_file :
    (ssh_run listed byList).tasks
        = [Task.command (str "ls") (transport "10.0.0.1:22" "root" "pw1"),
           Task.command (str "ls") (transport "10.0.0.2:22" "root" "pw2")]
    ∧ (ssh_run listed
          { byList with hosts := str "9.9.9.9:22", user := str "admin", passwd := str "x" }).tasks
        = [Task.command (str "ls") (transport "9.9.9.9:22" "admin" "x")] := by
  refine ⟨by decide, by decide⟩

/-- C7 (the code departs from the claim): with `-f` the host list is read from the path of
`-C`, not from the path of `-H`.  With `-f -H hosts.txt` and no `-C`, `ssh_run` opens the
empty path, reports that the host list cannot be read and launches nothing; with `-f -C
hosts.txt` it launches one task per address in `hosts.txt`, whatever `-H` holds. -/
theorem ssh_run_hostfile_reads_config_path :
    (ssh_run listed { byFlags with hostfile := true, hosts := str "hosts.txt" }).tasks = []
    ∧ (ssh_run listed { byFlags with hostfile := true, hosts := str "hosts.txt" }).stdout
        = [str "读取主机列表失败,open : no such file or directory\n"]
    ∧ (ssh_run listed
          { byFlags with hostfile := true, hosts := str "no such file",
                         config := str "hosts.txt" }).tasks
        = [Task.command (str "ls") (transport "10.0.0.1:22" "root" "pw1"),
           Task.command (str "ls") (transport "10.0.0.2:22" "root" "pw1")] := by
  refine ⟨by decide, by decide, by decide⟩


end command
